import Mathlib

/-!
Verification of the adaptive site-interaction engine of the coupon
validation bot.  The Python sources under `src/coupon_validator/` are
shallowly embedded: pure decision logic (platform fingerprinting,
result classification, discount-amount extraction, result formatting)
is translated into executable Lean functions, while browser and
network effects are abstracted into explicit environment records
(probe outcomes, per-attempt navigation outcomes, stage outcomes).
-/

namespace CouponBot

/-! ## Character classes and small string utilities

These mirror the character classes used by the Python regular
expressions in `coupon_applicator.py` and `website_pattern_recognizer.py`
(`re.IGNORECASE` matching, `\s`, `\w`, `[\d,.]`, `[\-\$£€]`), restricted
to their ASCII behaviour. -/

/-- Case-insensitive character comparison, as under `re.IGNORECASE`. -/
def ciEq (a b : Char) : Bool := a.toLower == b.toLower

/-- Python `\s` (ASCII part): space, tab, newline, carriage return,
vertical tab, form feed.  Also the set stripped by `str.strip()`. -/
def isPySpace (c : Char) : Bool :=
  c == ' ' || c == '\t' || c == '\n' || c == '\r' || c == '\x0b' || c == '\x0c'

/-- Python `\w` (ASCII part): letters, digits and underscore. -/
def isWordCh (c : Char) : Bool := c.isAlphanum || c == '_'

/-- The class `[\s\w]`. -/
def isSpaceWord (c : Char) : Bool := isPySpace c || isWordCh c

/-- The class `[:\-]`. -/
def isColonDash (c : Char) : Bool := c == ':' || c == '-'

/-- The class `[\$£€]`. -/
def isCurrency (c : Char) : Bool := c == '$' || c == '£' || c == '€'

/-- The class `[\-\$£€]`. -/
def isSignCh (c : Char) : Bool := c == '-' || isCurrency c

/-- The class `[\d,.]`. -/
def isDigCommaDot (c : Char) : Bool := c.isDigit || c == ',' || c == '.'

/-- Trailing- and leading-whitespace removal, Python `str.strip()`. -/
def stripChars (l : List Char) : List Char :=
  (((l.dropWhile isPySpace).reverse).dropWhile isPySpace).reverse

/-! ## A token model for the platform-signature regular expressions

Every pattern in `WebsitePatternRecognizer.platform_patterns` is a
sequence of literal characters (with `\/` denoting a literal slash)
and unescaped dots (`.` = any character except newline).  `PTok`
captures exactly these two constructs; a pattern is a token list and
matching is case-insensitive substring search, as performed by
`re.search(pattern, text, re.IGNORECASE)`. -/

inductive PTok where
  | lit (c : Char)
  | any
  deriving DecidableEq

/-- Whether one token matches one character (`.` does not match a newline). -/
def tokMatches : PTok → Char → Bool
  | .lit c, d => ciEq c d
  | .any, d => !(d == '\n')

/-- Match a token list against the beginning of a character list. -/
def matchHere : List PTok → List Char → Bool
  | [], _ => true
  | _ :: _, [] => false
  | t :: ts, c :: cs => tokMatches t c && matchHere ts cs

/-- Search for a match at any starting position (leftmost-first, like
`re.search`; only existence is used for scoring). -/
def searchFrom : List PTok → List Char → Bool
  | p, [] => matchHere p []
  | p, c :: cs => matchHere p (c :: cs) || searchFrom p cs

/-- `re.search(pattern, s, re.IGNORECASE) is not None`. -/
def patSearch (p : List PTok) (s : String) : Bool := searchFrom p s.data

/-- A pattern made only of literal characters. -/
def litPat (s : String) : List PTok := s.data.map PTok.lit

/-- Case-sensitive literal prefix test, used to state plain
"the text contains this token" hypotheses. -/
def csHere : List Char → List Char → Bool
  | [], _ => true
  | _ :: _, [] => false
  | n :: ns, c :: cs => (n == c) && csHere ns cs

/-- Case-sensitive literal substring containment. -/
def csFrom : List Char → List Char → Bool
  | p, [] => csHere p []
  | p, c :: cs => csHere p (c :: cs) || csFrom p cs

/-- `needle in hay` for plain strings. -/
def csContains (hay needle : String) : Bool := csFrom needle.data hay.data

/-! ## Platform fingerprinting (`website_pattern_recognizer.py`)

`platformPatterns` transcribes the `platform_patterns` dictionary
(lines 20–87) in declaration order; `identifyPlatform` embeds the
scoring and first-maximum selection of `identify_platform`
(lines 500–518). -/

def magentoPatterns : List (List PTok) :=
  [ litPat "Magento",
    litPat "mage/cookies",
    litPat "magento-version",
    litPat "Mage" ++ [PTok.any] ++ litPat "Cookies",
    litPat "Magento_Ui",
    litPat "catalog/product/view",
    litPat "checkout/cart",
    litPat "requirejs-config" ]

def woocommercePatterns : List (List PTok) :=
  [ litPat "woocommerce", litPat "WooCommerce", litPat "wc-", litPat "wc_",
    litPat "is-woocommerce-", litPat "woocommerce-", litPat "wp-content" ]

def shopifyPatterns : List (List PTok) :=
  [ litPat "shopify", litPat "Shopify", litPat "shopify-",
    litPat "/cdn/shop",
    litPat "shopify" ++ [PTok.any] ++ litPat "com",
    litPat "myshopify" ++ [PTok.any] ++ litPat "com" ]

def opencartPatterns : List (List PTok) :=
  [ litPat "opencart", litPat "OpenCart", litPat "route=checkout",
    litPat "route=product", litPat "catalog/view" ]

def prestashopPatterns : List (List PTok) :=
  [ litPat "prestashop", litPat "PrestaShop", litPat "presta-",
    litPat "id_product=", litPat "controller=product", litPat "controller=cart" ]

def bigcommercePatterns : List (List PTok) :=
  [ litPat "bigcommerce", litPat "BigCommerce", litPat "bc-",
    litPat "bigcommerce" ++ [PTok.any] ++ litPat "com",
    litPat "data-cart" ]

def skullcandyPatterns : List (List PTok) :=
  [ litPat "skullcandy", litPat "Skullcandy",
    litPat "skullcandy" ++ [PTok.any] ++ litPat "in",
    litPat "skullcandy" ++ [PTok.any] ++ litPat "com",
    litPat "skull-", litPat "collection/tws" ]

def customEcommercePatterns : List (List PTok) :=
  [ litPat "add-to-cart", litPat "add_to_cart", litPat "cart",
    litPat "checkout", litPat "product", litPat "collection", litPat "category" ]

/-- The signature table, in dictionary declaration order. -/
def platformPatterns : List (String × List (List PTok)) :=
  [ ("magento", magentoPatterns),
    ("woocommerce", woocommercePatterns),
    ("shopify", shopifyPatterns),
    ("opencart", opencartPatterns),
    ("prestashop", prestashopPatterns),
    ("bigcommerce", bigcommercePatterns),
    ("skullcandy", skullcandyPatterns),
    ("custom_ecommerce", customEcommercePatterns) ]

/-- One pattern contributes one point when it matches the HTML or the URL. -/
def patHits (pat : List PTok) (html url : String) : Bool :=
  patSearch pat html || patSearch pat url

/-- Per-platform match counts (`confidence_scores`). -/
def confidenceScores (html url : String) : List (String × Nat) :=
  platformPatterns.map (fun pp => (pp.1, (pp.2.filter (fun pat => patHits pat html url)).length))

/-- Maximum of the recorded scores (`max(confidence_scores.values())`). -/
def maxScore (scores : List (String × Nat)) : Nat :=
  scores.foldr (fun pr acc => max pr.2 acc) 0

/-- First platform whose score equals the maximum, in declaration order. -/
def firstWithScore (scores : List (String × Nat)) (m : Nat) : String :=
  match scores.find? (fun pr => pr.2 == m) with
  | some pr => pr.1
  | none => "unknown"

/-- Embedding of `identify_platform`: the detected tag together with the
confidence scores.  The tag stays `unknown` unless some platform scores
at least one match. -/
def identifyPlatform (html url : String) : String × List (String × Nat) :=
  let scores := confidenceScores html url
  let m := maxScore scores
  (if 0 < m then firstWithScore scores m else "unknown", scores)

/-- Score recorded for one platform. -/
def scoreLookup (scores : List (String × Nat)) (p : String) : Option Nat :=
  (scores.find? (fun pr => pr.1 == p)).map (fun pr => pr.2)

/-- Whether platform `p` scores strictly higher than every other platform. -/
def dominatesB (scores : List (String × Nat)) (p : String) : Bool :=
  match scores.find? (fun pr => pr.1 == p) with
  | some pr => scores.all (fun q => q.1 == p || decide (q.2 < pr.2))
  | none => false

/-! ## Discount-amount extraction (`coupon_applicator.py`, lines 426–509)

`_extract_discount_amount` scans element texts with the pattern
`[\-\$£€]?\s*[\d,.]+` and falls back to six full-HTML patterns of two
shapes.  In all of these every quantified character class is disjoint
from the first character the following piece can consume, so Python's
greedy backtracking search coincides with the maximal-munch matching
implemented here. -/

/-- The `\s*[\d,.]+` tail of the numeric pattern after an optional sign
character `sgn` has been consumed. -/
def numTail (sgn l1 : List Char) : Option (List Char) :=
  if ((l1.dropWhile isPySpace).takeWhile isDigCommaDot).isEmpty then none
  else some (sgn ++ l1.takeWhile isPySpace ++ (l1.dropWhile isPySpace).takeWhile isDigCommaDot)

/-- Match `[\-\$£€]?\s*[\d,.]+` at the head of the list, returning the
matched characters (`group(0)`). -/
def matchNumericAt : List Char → Option (List Char)
  | [] => numTail [] []
  | c :: rest => if isSignCh c then numTail [c] rest else numTail [] (c :: rest)

/-- Leftmost match of `[\-\$£€]?\s*[\d,.]+` (`re.search`). -/
def searchNumeric : List Char → Option (List Char)
  | [] => none
  | c :: cs =>
    match matchNumericAt (c :: cs) with
    | some m => some m
    | none => searchNumeric cs

/-- `numeric_match.group(0).strip()` for the element-text scan. -/
def extractNumericStr (s : String) : Option String :=
  (searchNumeric s.data).map (fun m => String.mk (stripChars m))

/-- Case-insensitive literal prefix match that keeps the original
characters: `group(0)` must preserve the case of the searched text. -/
def ciStarts : List Char → List Char → Option (List Char × List Char)
  | [], l => some ([], l)
  | _ :: _, [] => none
  | n :: ns, c :: cs =>
    if ciEq n c then (ciStarts ns cs).map (fun pr => (c :: pr.1, pr.2)) else none

/-- Match `word[\s\w]*[:\-]\s*[\$£€]?\s*[\d,.]+` at the head of the
list (the first three full-HTML discount patterns, `re.IGNORECASE`),
returning `group(0)`. -/
def shapeAAt (word : List Char) (l : List Char) : Option (List Char) :=
  match ciStarts word l with
  | none => none
  | some (w0, l1) =>
    let a := l1.takeWhile isSpaceWord
    let l2 := l1.dropWhile isSpaceWord
    match l2 with
    | [] => none
    | c :: l3 =>
      if isColonDash c then
        let b := l3.takeWhile isPySpace
        let l4 := l3.dropWhile isPySpace
        let (cur, l5) :=
          match l4 with
          | d :: rest => if isCurrency d then ([d], rest) else (([] : List Char), l4)
          | [] => ([], l4)
        let e := l5.takeWhile isPySpace
        let l6 := l5.dropWhile isPySpace
        let dg := l6.takeWhile isDigCommaDot
        if dg.isEmpty then none else some (w0 ++ a ++ c :: (b ++ cur ++ e ++ dg))
      else none

/-- Leftmost match of shape A. -/
def shapeASearch (word : List Char) : List Char → Option (List Char)
  | [] => none
  | c :: cs =>
    match shapeAAt word (c :: cs) with
    | some m => some m
    | none => shapeASearch word cs

/-- Match `[\-\$£€]\s*[\d,.]+\s*word` at the head of the list (the last
three full-HTML discount patterns), returning `group(0)`. -/
def shapeBAt (word : List Char) (l : List Char) : Option (List Char) :=
  match l with
  | [] => none
  | c :: l1 =>
    if isSignCh c then
      let a := l1.takeWhile isPySpace
      let l2 := l1.dropWhile isPySpace
      let dg := l2.takeWhile isDigCommaDot
      let l3 := l2.dropWhile isDigCommaDot
      if dg.isEmpty then none
      else
        let b := l3.takeWhile isPySpace
        let l4 := l3.dropWhile isPySpace
        match ciStarts word l4 with
        | some (w0, _) => some (c :: (a ++ dg ++ b ++ w0))
        | none => none
    else none

/-- Leftmost match of shape B. -/
def shapeBSearch (word : List Char) : List Char → Option (List Char)
  | [] => none
  | c :: cs =>
    match shapeBAt word (c :: cs) with
    | some m => some m
    | none => shapeBSearch word cs

/-- `match.group(0).strip()`. -/
def strippedOf (o : Option (List Char)) : Option String :=
  o.map (fun m => String.mk (stripChars m))

/-- The six full-HTML discount patterns, tried in order on a truthy
HTML string (lines 487–503). -/
def htmlDiscount (html : String) : Option String :=
  if html == "" then none
  else
    let l := html.data
    strippedOf (shapeASearch "discount".data l) <|>
    strippedOf (shapeASearch "coupon".data l) <|>
    strippedOf (shapeASearch "promo".data l) <|>
    strippedOf (shapeBSearch "discount".data l) <|>
    strippedOf (shapeBSearch "coupon".data l) <|>
    strippedOf (shapeBSearch "promo".data l)

/-! ## Page probes and platform information

A `Page` abstracts the browser state that the classifier reads:
element visibility, element text and the serialized HTML.  A
`PlatformInfo` is the dictionary assembled by `identify_platform` and
enriched in `main.py`; a role key can be absent (`none`), present but
empty (`some []`), or carry a selector ladder. -/

structure Page where
  visible : String → Bool
  textOf : String → Option String
  html : String

structure PlatformInfo where
  platform : String
  confScores : List (String × Nat) := []
  productGrid : Option (List String) := none
  addToCart : Option (List String) := none
  cartLink : Option (List String) := none
  checkoutButton : Option (List String) := none
  couponField : Option (List String) := none
  couponButton : Option (List String) := none
  couponSuccess : Option (List String) := none
  couponError : Option (List String) := none
  discountAmount : Option (List String) := none
  aiScores : Option (List (String × Rat)) := none

/-- Python truthiness of an optional string. -/
def truthyS : Option String → Bool
  | none => false
  | some s => !(s == "")

/-- Python truthiness of an optional list. -/
def truthyL : Option (List String) → Bool
  | none => false
  | some l => !l.isEmpty

/-- `platform_info['ai_confidence_scores'][role]` when both keys exist. -/
def aiScoreOf (pinfo : PlatformInfo) (role : String) : Option Rat :=
  match pinfo.aiScores with
  | none => none
  | some l => (l.find? (fun pr => pr.1 == role)).map (fun pr => pr.2)

/-- The ladder walk common to all message loops: take the first visible
selector whose text is truthy (a visible element with empty or missing
text lets the loop continue). -/
def firstTruthyText (page : Page) : List String → Option String
  | [] => none
  | sel :: rest =>
    if page.visible sel then
      match page.textOf sel with
      | some t => if t == "" then firstTruthyText page rest else some t
      | none => firstTruthyText page rest
    else firstTruthyText page rest

/-- Generic success-message selectors (`_check_validation_result`,
lines 343–362). -/
def genericSuccessSelectors : List String :=
  [ ".success-message", ".alert-success", ".message-success", ".coupon-success",
    ".discount-success", ".promo-success",
    "div:has-text(\"successfully\")", "div:has-text(\"Successfully\")",
    "div:has-text(\"applied\")", "div:has-text(\"Applied\")",
    "p:has-text(\"successfully\")", "p:has-text(\"Successfully\")",
    "p:has-text(\"applied\")", "p:has-text(\"Applied\")",
    "span:has-text(\"successfully\")", "span:has-text(\"Successfully\")",
    "span:has-text(\"applied\")", "span:has-text(\"Applied\")" ]

/-- Generic error-message selectors (lines 373–398). -/
def genericErrorSelectors : List String :=
  [ ".error-message", ".alert-danger", ".message-error", ".coupon-error",
    ".discount-error", ".promo-error",
    "div:has-text(\"invalid\")", "div:has-text(\"Invalid\")",
    "div:has-text(\"expired\")", "div:has-text(\"Expired\")",
    "div:has-text(\"not valid\")", "div:has-text(\"Not valid\")",
    "p:has-text(\"invalid\")", "p:has-text(\"Invalid\")",
    "p:has-text(\"expired\")", "p:has-text(\"Expired\")",
    "p:has-text(\"not valid\")", "p:has-text(\"Not valid\")",
    "span:has-text(\"invalid\")", "span:has-text(\"Invalid\")",
    "span:has-text(\"expired\")", "span:has-text(\"Expired\")",
    "span:has-text(\"not valid\")", "span:has-text(\"Not valid\")" ]

/-- Generic discount-amount selectors (`_extract_discount_amount`,
lines 454–472). -/
def genericDiscountSelectors : List String :=
  [ ".discount-amount", ".discount", ".coupon-discount", ".order-discount",
    ".cart-discount", ".price-discount", ".order-summary__discount",
    ".cart-summary__discount", ".discount-total",
    "span:has-text(\"discount\")", "div:has-text(\"discount\")",
    "tr:has-text(\"discount\")", "td:has-text(\"discount\")",
    "span:has-text(\"Discount\")", "div:has-text(\"Discount\")",
    "tr:has-text(\"Discount\")", "td:has-text(\"Discount\")" ]

/-- The element-text scan of `_extract_discount_amount`: the first
visible selector with truthy text whose text contains a numeric token
yields the token; otherwise the scan continues down the ladder. -/
def scanDiscount (page : Page) : List String → Option String
  | [] => none
  | sel :: rest =>
    if page.visible sel then
      match page.textOf sel with
      | some t =>
        if t == "" then scanDiscount page rest
        else
          match extractNumericStr t with
          | some m => some m
          | none => scanDiscount page rest
      | none => scanDiscount page rest
    else scanDiscount page rest

/-- Embedding of `_extract_discount_amount`: AI-prioritized selectors
(the platform discount ladder, when the AI confidence for
`discount_amount` exceeds 0.8) ahead of the generic ladder, then the
full-HTML fallback. -/
def extractDiscountAmount (page : Page) (pinfo : PlatformInfo) : Option String :=
  let aiSel : List String :=
    match aiScoreOf pinfo "discount_amount" with
    | some q =>
      if (0.8 : Rat) < q then
        match pinfo.discountAmount with
        | some l => if l.isEmpty then [] else l
        | none => []
      else []
    | none => []
  match scanDiscount page (aiSel ++ genericDiscountSelectors) with
  | some r => some r
  | none => htmlDiscount page.html

/-! ## Result classification (`_check_validation_result`, lines 284–424) -/

structure Verdict where
  is_valid : Bool
  discount_amount : Option String
  success_message : Option String
  error_message : Option String
  deriving DecidableEq

/-- Pure composition of the probe outcomes, mirroring the statement
order of `_check_validation_result`: platform success loop, platform
error loop, generic loops gated on "no message yet", then the two
discount-based upgrades. -/
def composeVerdict (pS pE gS gE d : Option String) : Verdict :=
  let v1 := if pE.isSome then false else if pS.isSome then true else false
  let noPlat := pS.isNone && pE.isNone
  let sMsg := if noPlat then gS else pS
  let eMsg := if noPlat then gE else pE
  let v2 := if noPlat then (if gE.isSome then false else if gS.isSome then true else v1) else v1
  let dT := truthyS d
  let da := if dT then d else none
  let v3 := if dT && sMsg.isNone && eMsg.isNone then true else v2
  let v4 := if !v3 && eMsg.isNone && dT then true else v3
  { is_valid := v4, discount_amount := da, success_message := sMsg, error_message := eMsg }

/-- Ladder probe for one optional platform message ladder, guarded by
`'platform' != 'unknown'` and key presence and truthiness. -/
def platMsgProbe (page : Page) (platKnown : Bool) (ladder : Option (List String)) : Option String :=
  if platKnown then
    match ladder with
    | some l => if l.isEmpty then none else firstTruthyText page l
    | none => none
  else none

/-- Embedding of `_check_validation_result`. -/
def checkValidationResult (page : Page) (pinfo : PlatformInfo) : Verdict :=
  let platKnown := !(pinfo.platform == "unknown")
  let pS := platMsgProbe page platKnown pinfo.couponSuccess
  let pE := platMsgProbe page platKnown pinfo.couponError
  let gS := firstTruthyText page genericSuccessSelectors
  let gE := firstTruthyText page genericErrorSelectors
  let d := extractDiscountAmount page pinfo
  composeVerdict pS pE gS gE d

/-! ## AI enhancement of the platform info (`main.py`, lines 125–151)

The analyzer's output is a set of detected element types, each with
the selectors `get_element_selectors` would generate for it, plus the
per-role confidence scores.  The merge in `validate_coupon` adds the
AI selectors for a role only when that role's key is present in the
platform info with a falsy (empty) value. -/

structure AIAnalysis where
  detected : List (String × List String)
  scores : List (String × Rat)

/-- `platform_info[element_type] = ai_selectors + platform_info[element_type]`
applied under `element_type in platform_info and not platform_info[element_type]`
and `if ai_selectors:`. -/
def mergeEmpty (old : Option (List String)) (sels : List String) : Option (List String) :=
  match old with
  | some [] => if sels.isEmpty then some [] else some sels
  | o => o

/-- Dispatch of one detected element type onto the platform-info role
fields (the nine entries of `element_types`). -/
def applyEnhance (pinfo : PlatformInfo) (et : String) (sels : List String) : PlatformInfo :=
  if et == "coupon_field" then { pinfo with couponField := mergeEmpty pinfo.couponField sels }
  else if et == "coupon_button" then { pinfo with couponButton := mergeEmpty pinfo.couponButton sels }
  else if et == "checkout_button" then { pinfo with checkoutButton := mergeEmpty pinfo.checkoutButton sels }
  else if et == "cart_link" then { pinfo with cartLink := mergeEmpty pinfo.cartLink sels }
  else if et == "add_to_cart" then { pinfo with addToCart := mergeEmpty pinfo.addToCart sels }
  else if et == "product_grid" then { pinfo with productGrid := mergeEmpty pinfo.productGrid sels }
  else if et == "coupon_success" then { pinfo with couponSuccess := mergeEmpty pinfo.couponSuccess sels }
  else if et == "coupon_error" then { pinfo with couponError := mergeEmpty pinfo.couponError sels }
  else if et == "discount_amount" then { pinfo with discountAmount := mergeEmpty pinfo.discountAmount sels }
  else pinfo

/-- Embedding of the AI-enhancement block of `validate_coupon`: iterate
over the detected elements and attach the confidence scores, but only
when something was detected at all. -/
def enhancePlatformInfo (pinfo : PlatformInfo) (ai : AIAnalysis) : PlatformInfo :=
  if ai.detected.isEmpty then pinfo
  else
    let p1 := ai.detected.foldl (fun acc pr => applyEnhance acc pr.1 pr.2) pinfo
    { p1 with aiScores := some ai.scores }

/-- Generic coupon-field selectors tried by `apply_coupon` after the
platform ladder (lines 91–114). -/
def couponFieldSelectorsGeneric : List String :=
  [ "input[name=\"coupon_code\"]", "input[id=\"coupon_code\"]",
    "input[name*=\"coupon\"]", "input[id*=\"coupon\"]",
    "input[placeholder*=\"coupon\"]", "input[placeholder*=\"Coupon\"]",
    "input[placeholder*=\"promo\"]", "input[placeholder*=\"Promo\"]",
    "input[placeholder*=\"discount\"]", "input[placeholder*=\"Discount\"]",
    "input[name=\"discount_code\"]", "input[id=\"discount_code\"]",
    "input[name*=\"discount\"]", "input[id*=\"discount\"]",
    "input[name=\"promo_code\"]", "input[id=\"promo_code\"]",
    "input[name*=\"promo\"]", "input[id*=\"promo\"]",
    "#checkout-discount-input", ".coupon-code-field input",
    ".discount-code-field input", ".promo-code-field input" ]

/-- Generic apply-button selectors (lines 183–205). -/
def applyButtonSelectorsGeneric : List String :=
  [ "button[name=\"apply_coupon\"]", "button[id=\"apply_coupon\"]",
    "button:has-text(\"Apply\")", "button:has-text(\"apply\")",
    "button:has-text(\"Apply Coupon\")", "button:has-text(\"Apply coupon\")",
    "button:has-text(\"Apply Discount\")", "button:has-text(\"Apply discount\")",
    "button:has-text(\"Apply Promo\")", "button:has-text(\"Apply promo\")",
    "input[value=\"Apply\"]", "input[value=\"Apply Coupon\"]",
    "input[value=\"Apply Discount\"]", "input[value=\"Apply Promo\"]",
    ".apply-coupon", ".apply-discount", ".apply-promo",
    "#discount-coupon-form .action.primary", ".discount-form .action.primary",
    ".coupon-form .action.primary", ".promo-form .action.primary" ]

/-- Order in which `apply_coupon` probes coupon-field selectors: the
platform ladder (when the platform is known and the key is truthy)
followed by the generic ladder; the script fallback comes only after
both. -/
def couponFieldProbeOrder (pinfo : PlatformInfo) : List String :=
  (if !(pinfo.platform == "unknown") && truthyL pinfo.couponField
   then pinfo.couponField.getD [] else []) ++ couponFieldSelectorsGeneric

/-- Order in which `apply_coupon` probes apply-button selectors. -/
def applyButtonProbeOrder (pinfo : PlatformInfo) : List String :=
  (if !(pinfo.platform == "unknown") && truthyL pinfo.couponButton
   then pinfo.couponButton.getD [] else []) ++ applyButtonSelectorsGeneric

/-! ## Result formatting (`result_reporter.py`, lines 33–70) -/

inductive RVal where
  | s (v : String)
  | b (v : Bool)
  deriving DecidableEq

/-- One optional entry: the key is added exactly when the argument is
truthy. -/
def optEntry (key : String) (v : Option String) : List (String × RVal) :=
  match v with
  | some t => if t == "" then [] else [(key, RVal.s t)]
  | none => []

/-- Embedding of `format_result`; the timestamp is environment input. -/
def formatResult (couponCode websiteUrl timestamp : String) (isValid : Bool)
    (statusMessage : String) (errorMessage discountAmount screenshotPath : Option String) :
    List (String × RVal) :=
  [ ("coupon_code", RVal.s couponCode),
    ("website_url", RVal.s websiteUrl),
    ("timestamp", RVal.s timestamp),
    ("is_valid", RVal.b isValid),
    ("status", RVal.s statusMessage) ] ++
  optEntry "error_message" errorMessage ++
  optEntry "discount_amount" discountAmount ++
  optEntry "screenshot_path" screenshotPath

/-- Key membership in a formatted result. -/
def hasKey (r : List (String × RVal)) (k : String) : Bool :=
  r.any (fun pr => pr.1 == k)

/-! ## Input validation and URL parsing (`input_handler.py`, lines 18–45)

`urlparse` is modelled closely enough for the checked properties: the
scheme is the lowercased prefix before a colon when it is a wellformed
scheme name, the netloc is the segment after `//` up to the next
delimiter, and a netloc with unbalanced square brackets raises
`ValueError` (the only raising behaviour reachable from
`validate_inputs` on string input). -/

def schemeChar (c : Char) : Bool := c.isAlphanum || c == '+' || c == '-' || c == '.'

/-- (scheme, remainder) split of a URL. -/
def splitScheme (cs : List Char) : List Char × List Char :=
  let pre := cs.takeWhile (fun c => !(c == ':'))
  if pre.length < cs.length ∧ pre ≠ [] ∧ (pre.headD ' ').isAlpha ∧ pre.all schemeChar then
    (pre.map Char.toLower, cs.drop (pre.length + 1))
  else ([], cs)

/-- Model of `urllib.parse.urlparse` restricted to scheme and netloc;
`Except.error` models the `ValueError` raised on a netloc with
unbalanced square brackets. -/
def parseUrl (url : String) : Except Unit (String × String) :=
  let (scheme, rest) := splitScheme url.data
  let netloc :=
    match rest with
    | '/' :: '/' :: tl => tl.takeWhile (fun c => !(c == '/' || c == '?' || c == '#'))
    | _ => []
  if (netloc.contains '[' && !netloc.contains ']') ||
     (netloc.contains ']' && !netloc.contains '[') then Except.error ()
  else Except.ok (String.mk scheme, String.mk netloc)

/-- Embedding of `InputHandler.validate_inputs`; the `Except` layer
records that the call can itself raise (through `urlparse`). -/
def validateInputsE (couponCode websiteUrl : String) : Except Unit Bool :=
  if couponCode == "" || websiteUrl == "" then Except.ok false
  else if couponCode.length < 2 || 50 < couponCode.length then Except.ok false
  else
    match parseUrl websiteUrl with
    | Except.error e => Except.error e
    | Except.ok (scheme, netloc) =>
      if scheme == "" || netloc == "" then Except.ok false else Except.ok true

/-! ## The navigation retry loop of `BrowserEngine.navigate`
(`browser_engine.py`, lines 248–384)

One attempt of the five-strategy loop either raises inside its `try`
block (caught by the per-attempt `except`, which records the message)
or completes browser interaction, yielding the optional HTTP status and
the content/bot check data read back from the page.

Fidelity note: in the shipped module the name `random` is bound only
locally inside `start` (line 66), never at module scope, so the
references at lines 277 and 281–284 (and 319) make every attempt of
`navigate` raise `NameError` before navigation and before the
content-sufficiency check.  Real executions therefore take only the
`raises` branch with one and the same exception text on every attempt —
this is `navigateRealEnv` below.  The `completes` branch describes the
outcomes the routine is written to check and makes the model a strict
superset of the program behaviours, which is sound for the safety
property (never success without the checks) proved over it. -/

structure ContentCheck where
  bodyExists : Bool
  contentLength : Nat
  hasLinks : Bool := false
  hasImages : Bool := false
  hasForms : Bool := false
  isInteractive : Bool := false
  deriving DecidableEq

structure BotCheck where
  hasCaptcha : Bool
  hasAccessDenied : Bool
  hasCloudflare : Bool
  hasBotDetection : Bool
  deriving DecidableEq

/-- `any(bot_check.values())`. -/
def BotCheck.anySignal (b : BotCheck) : Bool :=
  b.hasCaptcha || b.hasAccessDenied || b.hasCloudflare || b.hasBotDetection

inductive AttemptOutcome where
  | raises (msg : String)
  | completes (status : Option Nat) (content : ContentCheck) (bot : BotCheck)

structure NavMetrics where
  attempts : Nat
  success : Bool
  errors : List String
  responseStatus : Option Nat
  contentChecks : List ContentCheck

/-- The tail of one attempt after the HTTP-status gate: content
sufficiency check, then bot-detection check, then success. -/
def navAfterStatus (m : NavMetrics) (ct : ContentCheck) (bot : BotCheck) :
    NavMetrics × Bool :=
  let m := { m with contentChecks := m.contentChecks ++ [ct] }
  if !ct.bodyExists || ct.contentLength < 100 then
    ({ m with errors := m.errors ++ ["Insufficient content"] }, false)
  else if bot.anySignal then
    ({ m with errors := m.errors ++ ["Bot detection triggered"] }, false)
  else
    ({ m with success := true }, true)

/-- One iteration of the strategy loop; the returned flag is whether the
attempt returned success. -/
def navStep (m : NavMetrics) (idx : Nat) (oc : AttemptOutcome) : NavMetrics × Bool :=
  let m := { m with attempts := m.attempts + 1 }
  match oc with
  | .raises msg =>
    ({ m with errors :=
        m.errors ++ ["Navigation attempt " ++ toString (idx + 1) ++ " failed: " ++ msg] },
     false)
  | .completes st ct bot =>
    let m := { m with responseStatus := st }
    match st with
    | some s =>
      if 400 ≤ s then ({ m with errors := m.errors ++ ["HTTP " ++ toString s] }, false)
      else navAfterStatus m ct bot
    | none => navAfterStatus m ct bot

/-- Iterate the remaining attempts, stopping at the first success. -/
def navLoop : List AttemptOutcome → Nat → NavMetrics → Bool × NavMetrics
  | [], _, m => (false, m)
  | oc :: rest, idx, m =>
    let (m2, ok) := navStep m idx oc
    if ok then (true, m2) else navLoop rest (idx + 1) m2

/-- Embedding of `navigate`: five strategies, fresh metrics, overall
verdict plus aggregated metrics. -/
def navigateRun (env : Fin 5 → AttemptOutcome) : Bool × NavMetrics :=
  navLoop [env 0, env 1, env 2, env 3, env 4] 0
    { attempts := 0, success := false, errors := [], responseStatus := none,
      contentChecks := [] }

/-- An attempt that completes, passes the HTTP-status gate, and fails
the content-sufficiency check. -/
def contentFails : AttemptOutcome → Bool
  | .raises _ => false
  | .completes st ct _ =>
    (match st with
     | some s => decide (s < 400)
     | none => true) && (!ct.bodyExists || ct.contentLength < 100)

/-- An attempt on which every success condition held: navigation
completed, any HTTP status was below 400, the body existed with at
least 100 serialized characters, and no bot signal fired. -/
def goodAttempt : AttemptOutcome → Prop
  | .raises _ => False
  | .completes st ct bot =>
    (∀ s, st = some s → s < 400) ∧ ct.bodyExists = true ∧
      100 ≤ ct.contentLength ∧ bot.anySignal = false

/-! ## The overall run of `validate_coupon` (`main.py`, lines 37–271)

The control-flow skeleton of the coroutine is embedded as a function of
the stage outcomes.  Key translation points, each traceable to the
source: the boolean returned by `validate_inputs` is discarded
(line 59); the browser is constructed and started unconditionally
afterwards (lines 62, 78); each failure return happens inside `try`, so
the `finally` block runs and calls `close()` once; when an exception is
raised before line 62 the `except` block formats a result but the
`finally` block evaluates the unbound local `browser_engine`, which
raises `UnboundLocalError` — no close happens and the coroutine raises
instead of returning. -/

structure StageRes where
  success : Bool
  error : String

/-- The dictionary returned by `apply_coupon` (`.get` accesses model the
possibly missing keys). -/
structure CouponOutcome where
  success : Bool
  error : Option String
  is_valid : Bool
  error_message : Option String
  discount_amount : Option String

structure RunEnv where
  couponCode : String
  websiteUrl : String
  timestamp : String
  startOk : Bool
  nav1 : Except String Bool
  nav2 : Except String Bool
  nav3 : Except String Bool
  platformTag : String
  magentoRes : Except String Bool
  productRes : Except String StageRes
  cartRes : Except String StageRes
  checkoutRes : Except String StageRes
  couponRes : Except String CouponOutcome
  screenshotPath : String

structure RunOutput where
  constructed : Bool
  startCalled : Bool
  closeCalls : Nat
  crashed : Bool
  result : Option (List (String × RVal))

/-- One strategy of the outer navigation loop (lines 92–109): skipped
once navigation succeeded; a `False` return or an exception appends a
message and continues. -/
def navStrategyStep (acc : Bool × List String) (name : String) (r : Except String Bool) :
    Bool × List String :=
  if acc.1 then acc
  else
    match r with
    | Except.ok true => (true, acc.2)
    | Except.ok false => (false, acc.2 ++ ["Navigation failed with strategy: " ++ name])
    | Except.error e =>
      (false, acc.2 ++ ["Navigation failed with strategy " ++ name ++ ": " ++ e])

/-- A normal exit: the `finally` block closes the session exactly once. -/
def finishRun (r : List (String × RVal)) : RunOutput :=
  { constructed := true, startCalled := true, closeCalls := 1, crashed := false,
    result := some r }

/-- Embedding of `validate_coupon`. -/
def runValidateCoupon (env : RunEnv) : RunOutput :=
  match validateInputsE env.couponCode env.websiteUrl with
  | Except.error _ =>
    -- the exception is caught at line 239 and a result is formatted, but
    -- the cleanup guard at line 270 reads the never-assigned local
    -- `browser_engine` and raises UnboundLocalError: no close, no result
    { constructed := false, startCalled := false, closeCalls := 0, crashed := true,
      result := none }
  | Except.ok _ =>
    -- the validation verdict is discarded; construction and start are
    -- unconditional
    let cc := env.couponCode
    let wu := env.websiteUrl
    let ts := env.timestamp
    let nv := navStrategyStep (navStrategyStep (navStrategyStep (false, [])
                "networkidle" env.nav1) "domcontentloaded" env.nav2) "load" env.nav3
    if !nv.1 then
      finishRun (formatResult cc wu ts false "Navigation failed"
        (some ("Failed to navigate to the website after multiple attempts: " ++
          String.intercalate "; " nv.2)) none none)
    else
      match env.productRes with
      | Except.error e =>
        finishRun (formatResult cc wu ts false "Validation error" (some e) none none)
      | Except.ok pr =>
        if !pr.success then
          finishRun (formatResult cc wu ts false "Product selection failed"
            (some pr.error) none none)
        else
          match env.cartRes with
          | Except.error e =>
            finishRun (formatResult cc wu ts false "Validation error" (some e) none none)
          | Except.ok cr =>
            if !cr.success then
              finishRun (formatResult cc wu ts false "Adding to cart failed"
                (some cr.error) none none)
            else
              match env.checkoutRes with
              | Except.error e =>
                finishRun (formatResult cc wu ts false "Validation error" (some e) none none)
              | Except.ok kr =>
                if !kr.success then
                  finishRun (formatResult cc wu ts false "Checkout navigation failed"
                    (some kr.error) none none)
                else
                  match (if env.platformTag == "magento" then env.magentoRes
                         else Except.ok true) with
                  | Except.error e =>
                    finishRun (formatResult cc wu ts false "Validation error"
                      (some e) none none)
                  | Except.ok _ =>
                    match env.couponRes with
                    | Except.error e =>
                      finishRun (formatResult cc wu ts false "Validation error"
                        (some e) none none)
                    | Except.ok co =>
                      if !co.success then
                        finishRun (formatResult cc wu ts false "Coupon application failed"
                          (some (co.error.getD "Unknown error"))
                          none (some env.screenshotPath))
                      else
                        finishRun (formatResult cc wu ts co.is_valid
                          "Coupon validation complete" co.error_message
                          co.discount_amount (some env.screenshotPath))

/-! ## Helper lemmas -/

theorem mem_dropWhile_of_not (p : α → Bool) :
    ∀ (l : List α) (c : α), c ∈ l → p c = false → c ∈ l.dropWhile p := by
  intro l
  induction l with
  | nil => intro c hc _; cases hc
  | cons a t ih =>
    intro c hc hpc
    rcases List.mem_cons.mp hc with h | h
    · subst h
      rw [List.dropWhile_cons, hpc]
      exact List.mem_cons_self _ _
    · rw [List.dropWhile_cons]
      by_cases hpa : p a = true
      · simp only [hpa, if_pos]
        exact ih c h hpc
      · simp only [Bool.not_eq_true] at hpa
        simp only [hpa]
        exact List.mem_cons_of_mem _ h

theorem stripChars_ne_nil {l : List Char} {c : Char}
    (hc : c ∈ l) (hns : isPySpace c = false) : stripChars l ≠ [] := by
  intro h
  unfold stripChars at h
  have h1 : (l.dropWhile isPySpace).reverse.dropWhile isPySpace = [] := by
    have := congrArg List.reverse h
    simpa using this
  have h2 : ∀ x ∈ (l.dropWhile isPySpace).reverse, isPySpace x := by
    rw [← List.dropWhile_eq_nil_iff]
    exact h1
  have h3 : c ∈ l.dropWhile isPySpace := mem_dropWhile_of_not _ l c hc hns
  have h4 : c ∈ (l.dropWhile isPySpace).reverse := List.mem_reverse.mpr h3
  have := h2 c h4
  rw [hns] at this
  exact Bool.false_ne_true this

theorem space_cases {c : Char} (h : isPySpace c = true) :
    c = ' ' ∨ c = '\t' ∨ c = '\n' ∨ c = '\r' ∨ c = '\x0b' ∨ c = '\x0c' := by
  simp only [isPySpace, Bool.or_eq_true, beq_iff_eq] at h
  tauto

theorem not_space_of_digCommaDot {c : Char} (h : isDigCommaDot c = true) :
    isPySpace c = false := by
  by_contra hb
  simp only [Bool.not_eq_false] at hb
  rcases space_cases hb with rfl | rfl | rfl | rfl | rfl | rfl <;>
    exact absurd h (by decide)

theorem not_space_of_sign {c : Char} (h : isSignCh c = true) :
    isPySpace c = false := by
  simp only [isSignCh, isCurrency, Bool.or_eq_true, beq_iff_eq] at h
  rcases h with rfl | (rfl | rfl) | rfl <;> decide

theorem space_toLower_self {c : Char} (h : isPySpace c = true) : c.toLower = c := by
  rcases space_cases h with rfl | rfl | rfl | rfl | rfl | rfl <;> decide

theorem ciEq_nonspace {w c : Char} (hw : isPySpace w.toLower = false)
    (h : ciEq w c = true) : isPySpace c = false := by
  by_contra hb
  simp only [Bool.not_eq_false] at hb
  have hcl : c.toLower = c := space_toLower_self hb
  unfold ciEq at h
  have hwc : w.toLower = c.toLower := eq_of_beq h
  rw [hcl] at hwc
  rw [hwc, hb] at hw
  exact Bool.noConfusion hw

theorem string_mk_ne_empty {l : List Char} (h : l ≠ []) : String.mk l ≠ "" := by
  intro he
  apply h
  have : (String.mk l).data = ("" : String).data := by rw [he]
  simpa using this

theorem numTail_has_digit {sgn l1 m : List Char} (h : numTail sgn l1 = some m) :
    ∃ c ∈ m, isDigCommaDot c = true := by
  unfold numTail at h
  split at h
  · cases h
  · next hne =>
    simp only [Option.some.injEq] at h
    have hnil : (l1.dropWhile isPySpace).takeWhile isDigCommaDot ≠ [] := by
      simpa [List.isEmpty_iff] using hne
    rcases List.exists_mem_of_ne_nil _ hnil with ⟨c, hc⟩
    refine ⟨c, ?_, List.mem_takeWhile_imp hc⟩
    rw [← h]
    exact List.mem_append_right _ hc

theorem matchNumericAt_has_digit {l m : List Char} (h : matchNumericAt l = some m) :
    ∃ c ∈ m, isDigCommaDot c = true := by
  cases l with
  | nil =>
    unfold matchNumericAt at h
    exact numTail_has_digit h
  | cons c rest =>
    unfold matchNumericAt at h
    dsimp only at h
    by_cases hs : isSignCh c = true
    · rw [if_pos hs] at h
      exact numTail_has_digit h
    · rw [if_neg hs] at h
      exact numTail_has_digit h

theorem searchNumeric_has_digit :
    ∀ {l m : List Char}, searchNumeric l = some m → ∃ c ∈ m, isDigCommaDot c = true := by
  intro l
  induction l with
  | nil => intro m h; exact Option.noConfusion h
  | cons a t ih =>
    intro m h
    unfold searchNumeric at h
    cases hma : matchNumericAt (a :: t) with
    | some m2 =>
      rw [hma] at h
      cases h
      exact matchNumericAt_has_digit hma
    | none =>
      rw [hma] at h
      exact ih h

theorem extractNumericStr_ne_empty {s : String} {t : String}
    (h : extractNumericStr s = some t) : t ≠ "" := by
  unfold extractNumericStr at h
  cases hs : searchNumeric s.data with
  | none => rw [hs] at h; cases h
  | some m =>
    rw [hs] at h
    simp only [Option.map_some', Option.some.injEq] at h
    rcases searchNumeric_has_digit hs with ⟨c, hcm, hcd⟩
    rw [← h]
    exact string_mk_ne_empty (stripChars_ne_nil hcm (not_space_of_digCommaDot hcd))

theorem scanDiscount_ne_empty (page : Page) :
    ∀ {sels : List String} {t : String}, scanDiscount page sels = some t → t ≠ "" := by
  intro sels
  induction sels with
  | nil => intro t h; exact Option.noConfusion h
  | cons a r ih =>
    intro t h
    unfold scanDiscount at h
    split at h
    · split at h
      · split at h
        · exact ih h
        · split at h
          · next m hm =>
            cases h
            exact extractNumericStr_ne_empty hm
          · exact ih h
      · exact ih h
    · exact ih h

theorem ciStarts_head {w : Char} {ws l w0 l1 : List Char}
    (h : ciStarts (w :: ws) l = some (w0, l1)) :
    ∃ c cs, w0 = c :: cs ∧ ciEq w c = true := by
  cases l with
  | nil => simp [ciStarts] at h
  | cons c cs =>
    unfold ciStarts at h
    by_cases hc : ciEq w c = true
    · rw [if_pos hc] at h
      cases hrec : ciStarts ws cs with
      | none => rw [hrec] at h; cases h
      | some pr =>
        rw [hrec] at h
        simp only [Option.map_some', Option.some.injEq, Prod.mk.injEq] at h
        exact ⟨c, pr.1, by rw [← h.1], hc⟩
    · rw [if_neg hc] at h
      cases h

theorem shapeAAt_nonspace {w : Char} {ws l m : List Char}
    (hw : isPySpace w.toLower = false)
    (h : shapeAAt (w :: ws) l = some m) : ∃ c ∈ m, isPySpace c = false := by
  unfold shapeAAt at h
  cases hst : ciStarts (w :: ws) l with
  | none => rw [hst] at h; cases h
  | some pr =>
    rw [hst] at h
    obtain ⟨w0, l1⟩ := pr
    rcases ciStarts_head hst with ⟨c0, cs0, hw0, hci⟩
    dsimp only at h
    cases hl2 : l1.dropWhile isSpaceWord with
    | nil => rw [hl2] at h; exact Option.noConfusion h
    | cons c l3 =>
      rw [hl2] at h
      dsimp only at h
      by_cases hcd : isColonDash c = true
      · rw [if_pos hcd] at h
        split at h
        · exact Option.noConfusion h
        · simp only [Option.some.injEq] at h
          refine ⟨c0, ?_, ciEq_nonspace hw hci⟩
          rw [← h, hw0]
          simp
      · rw [if_neg hcd] at h
        exact Option.noConfusion h

theorem shapeASearch_nonspace {w : Char} {ws m : List Char}
    (hw : isPySpace w.toLower = false) :
    ∀ {l : List Char}, shapeASearch (w :: ws) l = some m → ∃ c ∈ m, isPySpace c = false := by
  intro l
  induction l with
  | nil => intro h; exact Option.noConfusion h
  | cons a t ih =>
    intro h
    unfold shapeASearch at h
    cases hat : shapeAAt (w :: ws) (a :: t) with
    | some m2 =>
      rw [hat] at h
      cases h
      exact shapeAAt_nonspace hw hat
    | none =>
      rw [hat] at h
      exact ih h

theorem shapeBAt_nonspace {ws l m : List Char}
    (h : shapeBAt ws l = some m) : ∃ c ∈ m, isPySpace c = false := by
  cases l with
  | nil => simp [shapeBAt] at h
  | cons c l1 =>
    unfold shapeBAt at h
    dsimp only at h
    by_cases hs : isSignCh c = true
    · rw [if_pos hs] at h
      split at h
      · exact Option.noConfusion h
      · split at h
        · simp only [Option.some.injEq] at h
          refine ⟨c, ?_, not_space_of_sign hs⟩
          rw [← h]
          simp
        · exact Option.noConfusion h
    · rw [if_neg hs] at h
      exact Option.noConfusion h

theorem shapeBSearch_nonspace {ws m : List Char} :
    ∀ {l : List Char}, shapeBSearch ws l = some m → ∃ c ∈ m, isPySpace c = false := by
  intro l
  induction l with
  | nil => intro h; exact Option.noConfusion h
  | cons a t ih =>
    intro h
    unfold shapeBSearch at h
    cases hat : shapeBAt ws (a :: t) with
    | some m2 =>
      rw [hat] at h
      cases h
      exact shapeBAt_nonspace hat
    | none =>
      rw [hat] at h
      exact ih h

theorem strippedOf_shapeA_ne {w : Char} {ws l : List Char} {t : String}
    (hw : isPySpace w.toLower = false)
    (h : strippedOf (shapeASearch (w :: ws) l) = some t) : t ≠ "" := by
  unfold strippedOf at h
  cases hsa : shapeASearch (w :: ws) l with
  | none => rw [hsa] at h; cases h
  | some m =>
    rw [hsa] at h
    simp only [Option.map_some', Option.some.injEq] at h
    rcases shapeASearch_nonspace hw hsa with ⟨c, hcm, hcs⟩
    rw [← h]
    exact string_mk_ne_empty (stripChars_ne_nil hcm hcs)

theorem strippedOf_shapeB_ne {ws l : List Char} {t : String}
    (h : strippedOf (shapeBSearch ws l) = some t) : t ≠ "" := by
  unfold strippedOf at h
  cases hsb : shapeBSearch ws l with
  | none => rw [hsb] at h; cases h
  | some m =>
    rw [hsb] at h
    simp only [Option.map_some', Option.some.injEq] at h
    rcases shapeBSearch_nonspace hsb with ⟨c, hcm, hcs⟩
    rw [← h]
    exact string_mk_ne_empty (stripChars_ne_nil hcm hcs)

theorem htmlDiscount_ne_empty {html : String} {t : String}
    (h : htmlDiscount html = some t) : t ≠ "" := by
  unfold htmlDiscount at h
  split at h
  · cases h
  · dsimp only at h
    rcases ho : strippedOf (shapeASearch "discount".data html.data) with _ | t1
    · rw [ho] at h
      simp only [Option.none_orElse] at h
      rcases ho2 : strippedOf (shapeASearch "coupon".data html.data) with _ | t2
      · rw [ho2] at h
        simp only [Option.none_orElse] at h
        rcases ho3 : strippedOf (shapeASearch "promo".data html.data) with _ | t3
        · rw [ho3] at h
          simp only [Option.none_orElse] at h
          rcases ho4 : strippedOf (shapeBSearch "discount".data html.data) with _ | t4
          · rw [ho4] at h
            simp only [Option.none_orElse] at h
            rcases ho5 : strippedOf (shapeBSearch "coupon".data html.data) with _ | t5
            · rw [ho5] at h
              simp only [Option.none_orElse] at h
              exact strippedOf_shapeB_ne h
            · rw [ho5] at h
              simp only [Option.some_orElse] at h
              cases h
              exact strippedOf_shapeB_ne ho5
          · rw [ho4] at h
            simp only [Option.some_orElse] at h
            cases h
            exact strippedOf_shapeB_ne ho4
        · rw [ho3] at h
          simp only [Option.some_orElse] at h
          cases h
          exact strippedOf_shapeA_ne (by decide) ho3
      · rw [ho2] at h
        simp only [Option.some_orElse] at h
        cases h
        exact strippedOf_shapeA_ne (by decide) ho2
    · rw [ho] at h
      simp only [Option.some_orElse] at h
      cases h
      exact strippedOf_shapeA_ne (by decide) ho

theorem extractDiscountAmount_ne_empty {page : Page} {pinfo : PlatformInfo} {d : String}
    (h : extractDiscountAmount page pinfo = some d) : d ≠ "" := by
  unfold extractDiscountAmount at h
  simp only at h
  split at h
  · next m hm => cases h; exact scanDiscount_ne_empty page hm
  · exact htmlDiscount_ne_empty h

theorem composeVerdict_error_invalid (pS pE gS gE d : Option String) (e : String)
    (h : (composeVerdict pS pE gS gE d).error_message = some e) :
    (composeVerdict pS pE gS gE d).is_valid = false := by
  cases pS <;> cases pE <;> cases gS <;> cases gE <;>
    simp_all [composeVerdict, truthyS]

theorem composeVerdict_discount_valid (pS pE gS gE : Option String) (d : String)
    (hd : d ≠ "")
    (hS : (composeVerdict pS pE gS gE (some d)).success_message = none)
    (hE : (composeVerdict pS pE gS gE (some d)).error_message = none) :
    (composeVerdict pS pE gS gE (some d)).is_valid = true ∧
      (composeVerdict pS pE gS gE (some d)).discount_amount = some d := by
  cases pS <;> cases pE <;> cases gS <;> cases gE <;>
    simp_all [composeVerdict, truthyS]

/-! ## Claim C1 -/

/-- C1.  For every classifier run — any platform info and any
combination of matching success-message selectors, error-message
selectors and extracted discount amount — if the returned verdict
carries an error message, then `is_valid` is `false`. -/
theorem c1_error_message_implies_invalid (page : Page) (pinfo : PlatformInfo) (e : String)
    (h : (checkValidationResult page pinfo).error_message = some e) :
    (checkValidationResult page pinfo).is_valid = false := by
  unfold checkValidationResult at h ⊢
  exact composeVerdict_error_invalid _ _ _ _ _ e h

/-- A page on which only a generic error selector is visible, with the
text `Coupon code is invalid`. -/
def pageErrOnly : Page :=
  { visible := fun s => s == ".error-message",
    textOf := fun s => if s == ".error-message" then some "Coupon code is invalid" else none,
    html := "" }

/-- Platform info of an unrecognized site. -/
def pinfoUnknown : PlatformInfo := { platform := "unknown" }

theorem c1_error_message_implies_invalid_witness :
    (checkValidationResult pageErrOnly pinfoUnknown).is_valid = false :=
  c1_error_message_implies_invalid pageErrOnly pinfoUnknown "Coupon code is invalid" (by decide)

/-! ## Claim C2 -/

/-- C2.  When neither a success nor an error message was found but a
discount amount was extracted, the verdict is valid and carries the
extracted amount. -/
theorem c2_discount_without_messages_valid (page : Page) (pinfo : PlatformInfo) (d : String)
    (hS : (checkValidationResult page pinfo).success_message = none)
    (hE : (checkValidationResult page pinfo).error_message = none)
    (hd : extractDiscountAmount page pinfo = some d) :
    (checkValidationResult page pinfo).is_valid = true ∧
      (checkValidationResult page pinfo).discount_amount = some d := by
  have hne : d ≠ "" := extractDiscountAmount_ne_empty hd
  unfold checkValidationResult at hS hE ⊢
  rw [hd] at hS hE ⊢
  exact composeVerdict_discount_valid _ _ _ _ d hne hS hE

/-- A page on which only a generic discount selector is visible, with a
dollar amount in its text. -/
def pageDiscOnly : Page :=
  { visible := fun s => s == ".discount-amount",
    textOf := fun s => if s == ".discount-amount" then some "Discount: $12.34" else none,
    html := "" }

theorem c2_discount_without_messages_valid_witness :
    (checkValidationResult pageDiscOnly pinfoUnknown).is_valid = true ∧
      (checkValidationResult pageDiscOnly pinfoUnknown).discount_amount = some "$12.34" :=
  c2_discount_without_messages_valid pageDiscOnly pinfoUnknown "$12.34"
    (by decide) (by decide) (by decide)

/-! ## Claim C10 -/

theorem optEntry_hasKey (key : String) (v : Option String) :
    ((optEntry key v).any fun pr => pr.1 == key) = truthyS v := by
  rcases v with _ | t
  · rfl
  · simp only [optEntry, truthyS]
    by_cases ht : (t == "") = true
    · rw [if_pos ht, ht]
      rfl
    · have ht2 : (t == "") = false := by
        rwa [Bool.not_eq_true] at ht
      rw [if_neg ht, ht2]
      simp

theorem optEntry_hasKey_ne (key k : String) (v : Option String)
    (hne : (key == k) = false) :
    ((optEntry key v).any fun pr => pr.1 == k) = false := by
  rcases v with _ | t
  · rfl
  · simp only [optEntry]
    split
    · rfl
    · simp [hne]

/-- C10.  `format_result` always emits the five base keys and emits
each optional key exactly when the corresponding argument is truthy, so
empty strings are dropped entirely. -/
theorem c10_formatResult_keys (cc wu ts : String) (iv : Bool) (st : String)
    (em da sp : Option String) :
    hasKey (formatResult cc wu ts iv st em da sp) "coupon_code" = true ∧
    hasKey (formatResult cc wu ts iv st em da sp) "website_url" = true ∧
    hasKey (formatResult cc wu ts iv st em da sp) "timestamp" = true ∧
    hasKey (formatResult cc wu ts iv st em da sp) "is_valid" = true ∧
    hasKey (formatResult cc wu ts iv st em da sp) "status" = true ∧
    hasKey (formatResult cc wu ts iv st em da sp) "error_message" = truthyS em ∧
    hasKey (formatResult cc wu ts iv st em da sp) "discount_amount" = truthyS da ∧
    hasKey (formatResult cc wu ts iv st em da sp) "screenshot_path" = truthyS sp := by
  refine ⟨?_, ?_, ?_, ?_, ?_, ?_, ?_, ?_⟩ <;>
    simp [formatResult, hasKey, List.any_append, optEntry_hasKey, optEntry_hasKey_ne]

/-! ## Claim C5 -/

/-- A run environment with an empty coupon code: `validate_inputs`
reports the input invalid, yet the pipeline proceeds. -/
def env5 : RunEnv :=
  { couponCode := "", websiteUrl := "https://example.com", timestamp := "2026-10-12 00:00:00",
    startOk := true, nav1 := Except.ok true, nav2 := Except.ok false, nav3 := Except.ok false,
    platformTag := "unknown", magentoRes := Except.ok true,
    productRes := Except.ok { success := false, error := "Could not find any products" },
    cartRes := Except.ok { success := true, error := "" },
    checkoutRes := Except.ok { success := true, error := "" },
    couponRes := Except.ok
      { success := false, error := none, is_valid := false,
        error_message := none, discount_amount := none },
    screenshotPath := "./output/shot.png" }

/-- C5 (code bug).  On an empty coupon code `validate_inputs` returns
`False`, but `validate_coupon` discards that boolean, so the run does
not fail fast: the Browser Session is still constructed and started. -/
theorem c5_invalid_input_still_starts_browser :
    validateInputsE "" "https://example.com" = Except.ok false ∧
    (runValidateCoupon env5).constructed = true ∧
    (runValidateCoupon env5).startCalled = true := by
  refine ⟨rfl, ?_, ?_⟩ <;> rfl

/-! ## Claim C8 -/

/-- A run environment whose URL makes `urlparse` raise `ValueError`
(unbalanced bracket in the netloc), before the browser is constructed. -/
def env8 : RunEnv :=
  { env5 with couponCode := "SAVE10", websiteUrl := "http://[" }

/-- A run environment for a completed run with valid inputs. -/
def env8ok : RunEnv :=
  { env5 with couponCode := "SAVE10" }

/-- C8 (code bug).  When an exception is raised at the input-validation
stage (before the browser local is assigned), the `finally` block reads
the unbound `browser_engine` and raises `UnboundLocalError`: `close()`
is called zero times and the coroutine crashes instead of returning a
result.  On a run with valid inputs the session is closed exactly
once. -/
theorem c8_cleanup_skipped_on_early_exception :
    validateInputsE "SAVE10" "http://[" = Except.error () ∧
    (runValidateCoupon env8).crashed = true ∧
    (runValidateCoupon env8).closeCalls = 0 ∧
    (runValidateCoupon env8).result = none ∧
    (runValidateCoupon env8ok).closeCalls = 1 ∧
    (runValidateCoupon env8ok).crashed = false := by
  refine ⟨rfl, ?_, ?_, ?_, ?_, ?_⟩ <;> rfl

/-! ## Claim C7 -/

theorem navAfterStatus_true {m : NavMetrics} {ct : ContentCheck} {bot : BotCheck}
    {m2 : NavMetrics} (h : navAfterStatus m ct bot = (m2, true)) :
    ct.bodyExists = true ∧ 100 ≤ ct.contentLength ∧ bot.anySignal = false := by
  unfold navAfterStatus at h
  split at h
  · simp at h
  · next h1 =>
    split at h
    · simp at h
    · next h2 =>
      have hb : ct.bodyExists = true := by
        by_contra hbb
        simp only [Bool.not_eq_true] at hbb
        exact h1 (by simp [hbb])
      have hlen : 100 ≤ ct.contentLength := by
        by_contra hl
        exact h1 (by simp [Nat.lt_of_not_le hl])
      exact ⟨hb, hlen, by simpa using h2⟩

theorem navStep_snd_true {m : NavMetrics} {idx : Nat} {oc : AttemptOutcome}
    (h : (navStep m idx oc).2 = true) : goodAttempt oc := by
  cases oc with
  | raises msg => simp [navStep] at h
  | completes st ct bot =>
    unfold navStep at h
    cases st with
    | none =>
      dsimp only at h
      rcases hr : navAfterStatus { m with attempts := m.attempts + 1, responseStatus := none } ct bot
        with ⟨m2, ok⟩
      rw [hr] at h
      cases ok
      · simp at h
      · rcases navAfterStatus_true hr with ⟨h1, h2, h3⟩
        exact ⟨fun s hs => Option.noConfusion hs, h1, h2, h3⟩
    | some s =>
      dsimp only at h
      by_cases hle : 400 ≤ s
      · rw [if_pos hle] at h
        simp at h
      · rw [if_neg hle] at h
        rcases hr : navAfterStatus
            { m with attempts := m.attempts + 1, responseStatus := some s } ct bot
          with ⟨m2, ok⟩
        rw [hr] at h
        cases ok
        · simp at h
        · rcases navAfterStatus_true hr with ⟨h1, h2, h3⟩
          refine ⟨?_, h1, h2, h3⟩
          intro s2 hs2
          cases hs2
          omega

theorem navLoop_fst_true :
    ∀ {l : List AttemptOutcome} {idx : Nat} {m : NavMetrics},
      (navLoop l idx m).1 = true → ∃ oc ∈ l, goodAttempt oc := by
  intro l
  induction l with
  | nil => intro idx m h; simp [navLoop] at h
  | cons oc rest ih =>
    intro idx m h
    unfold navLoop at h
    rcases hstep : navStep m idx oc with ⟨m2, ok⟩
    rw [hstep] at h
    dsimp only at h
    cases ok
    · simp only [Bool.false_eq_true, if_neg] at h
      rcases ih h with ⟨oc2, hmem, hgood⟩
      exact ⟨oc2, List.mem_cons_of_mem _ hmem, hgood⟩
    · exact ⟨oc, List.mem_cons_self _ _,
        navStep_snd_true (by rw [hstep])⟩

/-- C7.  `navigate` never returns overall success unless, on some
attempt, the HTTP status (when present) was below 400, the body existed
with at least the 100-character threshold, and no bot-detection signal
fired. -/
theorem c7_navigate_success_requires_checks (env : Fin 5 → AttemptOutcome)
    (h : (navigateRun env).1 = true) :
    ∃ i : Fin 5, goodAttempt (env i) := by
  unfold navigateRun at h
  rcases navLoop_fst_true h with ⟨oc, hmem, hgood⟩
  simp only [List.mem_cons, List.not_mem_nil, or_false] at hmem
  rcases hmem with rfl | rfl | rfl | rfl | rfl
  · exact ⟨0, hgood⟩
  · exact ⟨1, hgood⟩
  · exact ⟨2, hgood⟩
  · exact ⟨3, hgood⟩
  · exact ⟨4, hgood⟩

/-- An environment whose first attempt satisfies every success check. -/
def navEnvGood : Fin 5 → AttemptOutcome := fun _ =>
  AttemptOutcome.completes (some 200)
    { bodyExists := true, contentLength := 5000 }
    { hasCaptcha := false, hasAccessDenied := false, hasCloudflare := false,
      hasBotDetection := false }

theorem c7_navigate_success_requires_checks_witness :
    ∃ i : Fin 5, goodAttempt (navEnvGood i) :=
  c7_navigate_success_requires_checks navEnvGood rfl

/-! ## Claim C9 -/

/-- The per-attempt outcomes of the shipped `navigate`: with `random`
unresolved at module scope, every attempt raises `NameError` at the
pre-navigation mouse move inside the per-attempt `try`, with one and
the same exception text `msg` each time. -/
def navigateRealEnv (msg : String) : Fin 5 → AttemptOutcome := fun _ =>
  AttemptOutcome.raises msg

theorem append_right_ne {a b : String} (msg : String) (h : a.data ≠ b.data) :
    a ++ msg ≠ b ++ msg := by
  intro he
  apply h
  have h2 : a.data ++ msg.data = b.data ++ msg.data := by
    rw [← String.data_append, ← String.data_append, he]
  exact List.append_cancel_right h2

/-- C9 (code bug): the content-sufficiency failure path of `navigate`
is dead code.  Since every attempt raises before reaching the content
check, no attempt ever fails the content-sufficiency check; `navigate`
still returns failure with exactly 5 recorded attempts, but the five
failure reasons are the per-attempt exception messages — pairwise
distinct because of the attempt index — and the reason
`Insufficient content` that the claim describes is never recorded. -/
theorem c9_content_check_unreachable (msg : String) :
    (∀ i : Fin 5, contentFails (navigateRealEnv msg i) = false) ∧
    (navigateRun (navigateRealEnv msg)).1 = false ∧
    (navigateRun (navigateRealEnv msg)).2.attempts = 5 ∧
    (navigateRun (navigateRealEnv msg)).2.errors =
      ["Navigation attempt 1 failed: " ++ msg,
       "Navigation attempt 2 failed: " ++ msg,
       "Navigation attempt 3 failed: " ++ msg,
       "Navigation attempt 4 failed: " ++ msg,
       "Navigation attempt 5 failed: " ++ msg] ∧
    (navigateRun (navigateRealEnv msg)).2.errors.Nodup ∧
    "Insufficient content" ∉ (navigateRun (navigateRealEnv msg)).2.errors := by
  have herr : (navigateRun (navigateRealEnv msg)).2.errors =
      ["Navigation attempt 1 failed: " ++ msg,
       "Navigation attempt 2 failed: " ++ msg,
       "Navigation attempt 3 failed: " ++ msg,
       "Navigation attempt 4 failed: " ++ msg,
       "Navigation attempt 5 failed: " ++ msg] := rfl
  refine ⟨fun _ => rfl, rfl, rfl, herr, ?_, ?_⟩
  · rw [herr]
    refine List.nodup_cons.mpr ⟨?_, List.nodup_cons.mpr ⟨?_, List.nodup_cons.mpr
      ⟨?_, List.nodup_cons.mpr ⟨?_, List.nodup_singleton _⟩⟩⟩⟩ <;>
    · intro hmem
      simp only [List.mem_cons, List.not_mem_nil, or_false] at hmem
      rcases hmem with h | h | h | h <;>
        exact absurd h (append_right_ne msg (by decide))
  · rw [herr]
    intro hmem
    simp only [List.mem_cons, List.not_mem_nil, or_false] at hmem
    rcases hmem with h | h | h | h | h <;>
      exact absurd (show (20 : Nat) = 29 + msg.length from by
        have hl := congrArg String.length h
        rwa [String.length_append] at hl) (by omega)


/-! ## Claim C6 -/

theorem find_first {α : Type} (p : α → Bool) :
    ∀ (l : List α) (i : Fin l.length), p (l.get i) = true →
      (∀ j : Fin l.length, j.1 < i.1 → p (l.get j) = false) →
      l.find? p = some (l.get i) := by
  intro l
  induction l with
  | nil => intro i; exact absurd i.2 (by simp)
  | cons a t ih =>
    intro i hp hb
    rcases i with ⟨iv, hi⟩
    cases iv with
    | zero =>
      rw [List.find?_cons_of_pos _ (show p a = true from hp)]
      rfl
    | succ k =>
      have ha : p a = false := hb ⟨0, Nat.succ_pos _⟩ (Nat.succ_pos _)
      rw [List.find?_cons_of_neg _ (by simp [ha])]
      exact ih ⟨k, Nat.lt_of_succ_lt_succ hi⟩ hp
        (fun j hj => hb ⟨j.1 + 1, Nat.succ_lt_succ j.2⟩ (Nat.succ_lt_succ hj))

theorem maxScore_le {n : Nat} :
    ∀ {scores : List (String × Nat)}, (∀ pr ∈ scores, pr.2 ≤ n) → maxScore scores ≤ n := by
  intro scores
  induction scores with
  | nil => intro _; exact Nat.zero_le n
  | cons a t ih =>
    intro h
    simp only [maxScore, List.foldr_cons]
    exact max_le (h a (List.mem_cons_self _ _))
      (ih (fun pr hpr => h pr (List.mem_cons_of_mem _ hpr)))

theorem maxScore_zero {scores : List (String × Nat)}
    (h : ∀ pr ∈ scores, pr.2 = 0) : maxScore scores = 0 :=
  Nat.le_zero.mp (maxScore_le (fun pr hpr => Nat.le_of_eq (h pr hpr)))

/-- C6.  `identify_platform` scores each platform by the number of its
signature patterns matching the HTML or the URL; when every score is
zero the tag is `unknown`; otherwise the first platform (in table
declaration order) whose score equals the maximum wins, so ties at the
maximum are broken by declaration order. -/
theorem c6_identify_first_max (html url : String) :
    (identifyPlatform html url).2 = confidenceScores html url ∧
    (∀ p pats, (p, pats) ∈ platformPatterns →
      (p, (pats.filter (fun pat => patHits pat html url)).length) ∈
        confidenceScores html url) ∧
    ((∀ pr ∈ confidenceScores html url, pr.2 = 0) →
      (identifyPlatform html url).1 = "unknown") ∧
    (∀ i : Fin (confidenceScores html url).length,
      0 < ((confidenceScores html url).get i).2 →
      ((confidenceScores html url).get i).2 = maxScore (confidenceScores html url) →
      (∀ j : Fin (confidenceScores html url).length, j.1 < i.1 →
        ((confidenceScores html url).get j).2 < ((confidenceScores html url).get i).2) →
      (identifyPlatform html url).1 = ((confidenceScores html url).get i).1) := by
  refine ⟨rfl, ?_, ?_, ?_⟩
  · intro p pats hmem
    exact List.mem_map_of_mem
      (fun pp => (pp.1, (pp.2.filter (fun pat => patHits pat html url)).length)) hmem
  · intro hz
    unfold identifyPlatform
    dsimp only
    rw [if_neg]
    simp [maxScore_zero hz]
  · intro i hpos hmax hlt
    unfold identifyPlatform
    dsimp only
    rw [if_pos (hmax ▸ hpos)]
    unfold firstWithScore
    rw [find_first (fun pr => pr.2 == maxScore (confidenceScores html url))
      (confidenceScores html url) i (by simp [← hmax])
      (fun j hj => by
        have := hlt j hj
        simp only [beq_eq_false_iff_ne, ne_eq]
        omega)]

/-- HTML and URL of a minimal WooCommerce storefront page. -/
def wooHtml : String := "woocommerce wp-content"

theorem c6_identify_first_max_witness :
    (identifyPlatform wooHtml "").1 = "woocommerce" :=
  (c6_identify_first_max wooHtml "").2.2.2 ⟨1, by decide⟩ (by decide) (by decide)
    (fun j hj => by
      have hj1 : j.1 < 1 := hj
      have h0 : j.1 = 0 := by omega
      have hje : j = (⟨0, by decide⟩ : Fin (confidenceScores wooHtml "").length) :=
        Fin.ext h0
      rw [hje]
      decide)

/-! ## Claim C3 -/

/-- The pattern `Mage.Cookies` (unescaped dot). -/
def mageCookiesPat : List PTok := litPat "Mage" ++ [PTok.any] ++ litPat "Cookies"

/-- The pattern `checkout\/cart`. -/
def checkoutCartPat : List PTok := litPat "checkout/cart"

/-- A token list is weaker than a literal string when it matches it
position-by-position (so any text containing the string matches the
pattern). -/
def patWeaker : List PTok → List Char → Bool
  | [], [] => true
  | .lit c :: ts, d :: ds => (c == d) && patWeaker ts ds
  | .any :: ts, d :: ds => !(d == '\n') && patWeaker ts ds
  | _, _ => false

theorem patWeaker_matchHere :
    ∀ {pat : List PTok} {s l : List Char}, patWeaker pat s = true →
      csHere s l = true → matchHere pat l = true := by
  intro pat
  induction pat with
  | nil =>
    intro s l hw _
    rfl
  | cons t ts ih =>
    intro s l hw hc
    cases t with
    | lit c =>
      cases s with
      | nil => exact absurd hw (by simp [patWeaker])
      | cons d ds =>
        unfold patWeaker at hw
        rcases Bool.and_eq_true_iff.mp hw with ⟨hcd, hw2⟩
        cases l with
        | nil => exact absurd hc (by simp [csHere])
        | cons c0 l0 =>
          unfold csHere at hc
          rcases Bool.and_eq_true_iff.mp hc with ⟨hdc0, hc2⟩
          unfold matchHere tokMatches
          refine Bool.and_eq_true_iff.mpr ⟨?_, ih hw2 hc2⟩
          have h1 : c = d := eq_of_beq hcd
          have h2 : d = c0 := eq_of_beq hdc0
          simp [ciEq, h1, h2]
    | any =>
      cases s with
      | nil => exact absurd hw (by simp [patWeaker])
      | cons d ds =>
        unfold patWeaker at hw
        rcases Bool.and_eq_true_iff.mp hw with ⟨hnl, hw2⟩
        cases l with
        | nil => exact absurd hc (by simp [csHere])
        | cons c0 l0 =>
          unfold csHere at hc
          rcases Bool.and_eq_true_iff.mp hc with ⟨hdc0, hc2⟩
          unfold matchHere tokMatches
          refine Bool.and_eq_true_iff.mpr ⟨?_, ih hw2 hc2⟩
          have h2 : d = c0 := eq_of_beq hdc0
          rwa [← h2]

theorem patWeaker_searchFrom {pat : List PTok} {s : List Char}
    (hw : patWeaker pat s = true) :
    ∀ {hay : List Char}, csFrom s hay = true → searchFrom pat hay = true := by
  intro hay
  induction hay with
  | nil =>
    intro hc
    exact patWeaker_matchHere hw hc
  | cons c cs ih =>
    intro hc
    unfold csFrom at hc
    unfold searchFrom
    rcases Bool.or_eq_true_iff.mp hc with h | h
    · exact Bool.or_eq_true_iff.mpr (Or.inl (patWeaker_matchHere hw h))
    · exact Bool.or_eq_true_iff.mpr (Or.inr (ih h))

theorem two_le_filter {α : Type} (p : α → Bool) (l1 l2 l3 : List α) (x y : α)
    (hx : p x = true) (hy : p y = true) :
    2 ≤ (List.filter p (l1 ++ x :: (l2 ++ y :: l3))).length := by
  simp [List.filter_append, List.filter_cons, hx, hy]
  omega

theorem dominates_head (p : String) (n : Nat) (rest : List (String × Nat))
    (hpos : 0 < n)
    (hdom : dominatesB ((p, n) :: rest) p = true)
    (hnot : ∀ q ∈ rest, (q.1 == p) = false) :
    0 < maxScore ((p, n) :: rest) ∧
      firstWithScore ((p, n) :: rest) (maxScore ((p, n) :: rest)) = p := by
  have hall : ∀ q ∈ (p, n) :: rest, (q.1 == p || decide (q.2 < n)) = true := by
    unfold dominatesB at hdom
    rw [List.find?_cons_of_pos _ (by simp)] at hdom
    exact List.all_eq_true.mp hdom
  have hrest : ∀ q ∈ rest, q.2 ≤ n := by
    intro q hq
    have h1 := hall q (List.mem_cons_of_mem _ hq)
    rw [hnot q hq] at h1
    simp only [Bool.false_or, decide_eq_true_eq] at h1
    omega
  have hmax : maxScore ((p, n) :: rest) = n := by
    simp only [maxScore, List.foldr_cons]
    have : maxScore rest ≤ n := maxScore_le hrest
    simp only [maxScore] at this
    omega
  refine ⟨by omega, ?_⟩
  rw [hmax]
  unfold firstWithScore
  rw [List.find?_cons_of_pos _ (by simp)]

/-- HTML that contains only the `Mage.Cookies` token. -/
def c3Html : String := "Mage.Cookies"

/-- A cart URL with no other platform token. -/
def c3Url : String := "https://store.example/checkout/cart"

/-- C3 counterexample: on a page whose HTML contains `Mage.Cookies` and
whose URL contains `checkout/cart`, the tag is `magento`, but the
`custom_ecommerce` catch-all also scores 2 (its `cart` and `checkout`
patterns match the URL), so the magento score is not strictly greater
than every other platform score — the tie is only broken by declaration
order. -/
theorem c3_strictly_greater_counterexample :
    csContains c3Html "Mage.Cookies" = true ∧
    csContains c3Url "checkout/cart" = true ∧
    (identifyPlatform c3Html c3Url).1 = "magento" ∧
    scoreLookup (confidenceScores c3Html c3Url) "magento" = some 2 ∧
    scoreLookup (confidenceScores c3Html c3Url) "custom_ecommerce" = some 2 ∧
    dominatesB (confidenceScores c3Html c3Url) "magento" = false := by
  refine ⟨?_, ?_, ?_, ?_, ?_, ?_⟩ <;> decide

/-- C3 (amended).  For any page whose HTML contains the token
`Mage.Cookies` and whose URL contains `checkout/cart`, magento scores
at least 2; and whenever magento's score is strictly greater than every
other platform's (which need not follow from those two tokens), the
returned tag is `magento`. -/
theorem c3_mage_cookies_cart (html url : String)
    (hH : csContains html "Mage.Cookies" = true)
    (hU : csContains url "checkout/cart" = true) :
    2 ≤ (scoreLookup (confidenceScores html url) "magento").getD 0 ∧
    (dominatesB (confidenceScores html url) "magento" = true →
      (identifyPlatform html url).1 = "magento") := by
  have hm1 : patHits mageCookiesPat html url = true := by
    unfold patHits patSearch
    exact Bool.or_eq_true_iff.mpr
      (Or.inl (patWeaker_searchFrom (by decide) hH))
  have hm2 : patHits checkoutCartPat html url = true := by
    unfold patHits patSearch
    exact Bool.or_eq_true_iff.mpr
      (Or.inr (patWeaker_searchFrom (by decide) hU))
  have hcount : 2 ≤ (magentoPatterns.filter (fun pat => patHits pat html url)).length := by
    have hdecomp : magentoPatterns =
        [litPat "Magento", litPat "mage/cookies", litPat "magento-version"] ++
          mageCookiesPat ::
            ([litPat "Magento_Ui", litPat "catalog/product/view"] ++
              checkoutCartPat :: [litPat "requirejs-config"]) := rfl
    rw [hdecomp]
    exact two_le_filter _ _ _ _ _ _ hm1 hm2
  have hlook : scoreLookup (confidenceScores html url) "magento" =
      some ((magentoPatterns.filter (fun pat => patHits pat html url)).length) := by
    unfold scoreLookup confidenceScores platformPatterns
    rw [List.map_cons, List.find?_cons_of_pos _ (by simp)]
    rfl
  constructor
  · rw [hlook]
    exact hcount
  · intro hdom
    have hcons : confidenceScores html url =
        ("magento", (magentoPatterns.filter (fun pat => patHits pat html url)).length) ::
          (platformPatterns.tail.map
            (fun pp => (pp.1, (pp.2.filter (fun pat => patHits pat html url)).length))) := rfl
    rw [hcons] at hdom
    have hnot : ∀ q ∈ platformPatterns.tail.map
        (fun pp => (pp.1, (pp.2.filter (fun pat => patHits pat html url)).length)),
        (q.1 == "magento") = false := by
      intro q hq
      simp only [List.mem_map] at hq
      rcases hq with ⟨pp, hpp, rfl⟩
      simp only [platformPatterns, List.tail_cons, List.mem_cons,
        List.not_mem_nil, or_false] at hpp
      rcases hpp with rfl | rfl | rfl | rfl | rfl | rfl | rfl <;> rfl
    obtain ⟨hpos, hfw⟩ := dominates_head "magento" _ _ (by omega) hdom hnot
    unfold identifyPlatform
    dsimp only
    rw [hcons, if_pos hpos, hfw]

theorem c3_mage_cookies_cart_witness :
    2 ≤ (scoreLookup (confidenceScores c3Html c3Url) "magento").getD 0 ∧
    (dominatesB (confidenceScores c3Html c3Url) "magento" = true →
      (identifyPlatform c3Html c3Url).1 = "magento") :=
  c3_mage_cookies_cart c3Html c3Url (by decide) (by decide)

/-! ## Claim C4 -/

theorem applyEnhance_platform (pinfo : PlatformInfo) (et : String) (sels : List String) :
    (applyEnhance pinfo et sels).platform = pinfo.platform := by
  unfold applyEnhance
  split_ifs <;> rfl

theorem applyEnhance_couponField (pinfo : PlatformInfo) (et : String) (sels : List String) :
    (applyEnhance pinfo et sels).couponField =
      if et == "coupon_field" then mergeEmpty pinfo.couponField sels
      else pinfo.couponField := by
  unfold applyEnhance
  split_ifs <;> rfl

theorem mergeEmpty_of_ne_nil {l : List String} (sels : List String) (h : l ≠ []) :
    mergeEmpty (some l) sels = some l := by
  cases l with
  | nil => exact absurd rfl h
  | cons a t => rfl

theorem mergeEmpty_empty (sels : List String) (h : sels ≠ []) :
    mergeEmpty (some []) sels = some sels := by
  unfold mergeEmpty
  dsimp only
  have hie : sels.isEmpty = false := by
    cases sels with
    | nil => exact absurd rfl h
    | cons a t => rfl
  rw [hie]
  rfl

/-- The enhancement fold in `validate_coupon`. -/
def enhanceFold (ldet : List (String × List String)) (pinfo : PlatformInfo) : PlatformInfo :=
  ldet.foldl (fun acc pr => applyEnhance acc pr.1 pr.2) pinfo

theorem enhanceFold_platform :
    ∀ (ldet : List (String × List String)) (pinfo : PlatformInfo),
      (enhanceFold ldet pinfo).platform = pinfo.platform := by
  intro ldet
  induction ldet with
  | nil => intro pinfo; rfl
  | cons pr rest ih =>
    intro pinfo
    unfold enhanceFold at ih ⊢
    rw [List.foldl_cons, ih]
    exact applyEnhance_platform pinfo pr.1 pr.2

theorem enhanceFold_keep :
    ∀ (ldet : List (String × List String)) (pinfo : PlatformInfo) (l : List String),
      pinfo.couponField = some l → l ≠ [] →
      (enhanceFold ldet pinfo).couponField = some l := by
  intro ldet
  induction ldet with
  | nil => intro pinfo l hcf _; exact hcf
  | cons pr rest ih =>
    intro pinfo l hcf hne
    unfold enhanceFold at ih ⊢
    rw [List.foldl_cons]
    refine ih _ l ?_ hne
    rw [applyEnhance_couponField, hcf]
    split
    · exact mergeEmpty_of_ne_nil _ hne
    · rfl

theorem enhanceFold_fill :
    ∀ (ldet : List (String × List String)) (pinfo : PlatformInfo) (sels : List String),
      pinfo.couponField = some [] →
      ldet.find? (fun pr => pr.1 == "coupon_field") = some ("coupon_field", sels) →
      sels ≠ [] →
      (enhanceFold ldet pinfo).couponField = some sels := by
  intro ldet
  induction ldet with
  | nil => intro pinfo sels _ hfind _; exact Option.noConfusion hfind
  | cons pr rest ih =>
    intro pinfo sels hcf hfind hne
    by_cases het : (pr.1 == "coupon_field") = true
    · have hf2 : List.find? (fun q => q.1 == "coupon_field") (pr :: rest) = some pr :=
        List.find?_cons_of_pos _ het
      rw [hf2] at hfind
      have hpr : pr = ("coupon_field", sels) := Option.some.inj hfind
      subst hpr
      unfold enhanceFold
      rw [List.foldl_cons]
      refine enhanceFold_keep rest _ sels ?_ hne
      rw [applyEnhance_couponField, hcf,
        if_pos (show (("coupon_field" : String) == "coupon_field") = true from rfl)]
      exact mergeEmpty_empty sels hne
    · have hf2 : List.find? (fun q => q.1 == "coupon_field") (pr :: rest) =
          List.find? (fun q => q.1 == "coupon_field") rest :=
        List.find?_cons_of_neg _ het
      rw [hf2] at hfind
      unfold enhanceFold
      rw [List.foldl_cons]
      refine ih _ sels ?_ hfind hne
      rw [applyEnhance_couponField, hcf, if_neg (by simpa using het)]

theorem enhance_couponField_eq (pinfo : PlatformInfo) (ai : AIAnalysis) :
    (enhancePlatformInfo pinfo ai).couponField =
      if ai.detected.isEmpty then pinfo.couponField
      else (enhanceFold ai.detected pinfo).couponField := by
  unfold enhancePlatformInfo enhanceFold
  split
  · rfl
  · rfl

theorem enhance_platform_eq (pinfo : PlatformInfo) (ai : AIAnalysis) :
    (enhancePlatformInfo pinfo ai).platform = pinfo.platform := by
  unfold enhancePlatformInfo
  split
  · rfl
  · exact enhanceFold_platform ai.detected pinfo

/-- C4 (amended).  AI-generated selectors for a role are merged only
when that role's key is present in the platform info with an empty
ladder, in which case they become the entire (hence leading) platform
ladder and are probed ahead of the generic ladder by `apply_coupon`;
a non-empty platform ladder is never reordered, and the merge does not
depend on the confidence scores at all — the 0.8 threshold in
`apply_coupon` only selects log messages. -/
theorem c4_ai_selectors_merge (pinfo : PlatformInfo) (ai : AIAnalysis) :
    (∀ l, pinfo.couponField = some l → l ≠ [] →
      (enhancePlatformInfo pinfo ai).couponField = some l) ∧
    (∀ sels, pinfo.couponField = some [] →
      ai.detected.find? (fun pr => pr.1 == "coupon_field") = some ("coupon_field", sels) →
      sels ≠ [] →
      (enhancePlatformInfo pinfo ai).couponField = some sels ∧
      (pinfo.platform ≠ "unknown" →
        couponFieldProbeOrder (enhancePlatformInfo pinfo ai) =
          sels ++ couponFieldSelectorsGeneric)) ∧
    (∀ sc, (enhancePlatformInfo pinfo { detected := ai.detected, scores := sc }).couponField =
      (enhancePlatformInfo pinfo ai).couponField) := by
  refine ⟨?_, ?_, ?_⟩
  · intro l hcf hne
    rw [enhance_couponField_eq]
    split
    · exact hcf
    · exact enhanceFold_keep ai.detected pinfo l hcf hne
  · intro sels hcf hfind hne
    have hnonempty : ai.detected.isEmpty = false := by
      cases hdet : ai.detected with
      | nil => rw [hdet] at hfind; exact Option.noConfusion hfind
      | cons a t => rfl
    have hmerged : (enhancePlatformInfo pinfo ai).couponField = some sels := by
      rw [enhance_couponField_eq, hnonempty]
      simp only [Bool.false_eq_true, if_neg]
      exact enhanceFold_fill ai.detected pinfo sels hcf hfind hne
    refine ⟨hmerged, ?_⟩
    intro hplat
    unfold couponFieldProbeOrder
    rw [hmerged, enhance_platform_eq]
    have h1 : (pinfo.platform == "unknown") = false := by
      exact beq_eq_false_iff_ne.mpr hplat
    have h2 : truthyL (some sels) = true := by
      simp [truthyL, List.isEmpty_iff, hne]
    rw [h1, h2]
    rfl
  · intro sc
    unfold enhancePlatformInfo
    dsimp only
    split
    · rfl
    · rfl

/-- The WooCommerce coupon-field ladder from the selector table. -/
def wooCouponFieldLadder : List String :=
  ["#coupon_code", ".coupon #coupon_code", "input[name=\"coupon_code\"]"]

/-- Platform info for a recognized WooCommerce site (coupon-field role
populated from the selector table). -/
def pinfoWoo : PlatformInfo :=
  { platform := "woocommerce", couponField := some wooCouponFieldLadder }

/-- The same platform info with an empty (but present) coupon-field
ladder. -/
def pinfoWooEmptyField : PlatformInfo :=
  { platform := "woocommerce", couponField := some [] }

/-- An AI analysis that detected the coupon field with confidence 0.9,
above the 0.8 threshold. -/
def aiHigh : AIAnalysis :=
  { detected := [("coupon_field", ["#ai-coupon-field"])],
    scores := [("coupon_field", (0.9 : Rat))] }

/-- C4 counterexample: with AI confidence 0.9 > 0.8 for the coupon
field and a non-empty WooCommerce platform ladder, the AI-suggested
selector is not prepended — it does not appear anywhere in the
coupon-field probe order, which keeps the platform ladder first. -/
theorem c4_prepend_counterexample :
    aiScoreOf (enhancePlatformInfo pinfoWoo aiHigh) "coupon_field" = some (0.9 : Rat) ∧
    (0.8 : Rat) < (0.9 : Rat) ∧
    (enhancePlatformInfo pinfoWoo aiHigh).couponField = some wooCouponFieldLadder ∧
    "#ai-coupon-field" ∉ couponFieldProbeOrder (enhancePlatformInfo pinfoWoo aiHigh) := by
  refine ⟨rfl, by norm_num, by decide, by decide⟩

theorem c4_ai_selectors_merge_witness :
    (enhancePlatformInfo pinfoWooEmptyField aiHigh).couponField = some ["#ai-coupon-field"] ∧
    couponFieldProbeOrder (enhancePlatformInfo pinfoWooEmptyField aiHigh) =
      ["#ai-coupon-field"] ++ couponFieldSelectorsGeneric :=
  ⟨((c4_ai_selectors_merge pinfoWooEmptyField aiHigh).2.1 ["#ai-coupon-field"]
      rfl rfl (by decide)).1,
   ((c4_ai_selectors_merge pinfoWooEmptyField aiHigh).2.1 ["#ai-coupon-field"]
      rfl rfl (by decide)).2 (by decide)⟩

end CouponBot
